import Mathlib

/-
Verification development for the `motherlib` HTTP client library.

The development shallowly embeds the Python sources:
  * `src/motherlib/model.py`  — `Record` and its JSON decoding,
  * `src/motherlib/client.py` — `HTTPClient` (transport + retry loop),
    `APIClient` (URI construction, error translation, response decoding).

External collaborators (the `requests` transport, the `json` parser, the
`iso8601` timestamp parser, the `retrying` decorator) are modelled by their
observable outcomes: a network is a function from attempt number to either a
connection error or a response; a response carries the outcome of attempting
to parse its body as JSON; the timestamp parser is an arbitrary function
parameter.  Machine-level concerns (sockets, timeouts) are out of scope.
-/

set_option autoImplicit false

/-- A JSON value, the result of a successful `response.json()` call. -/
inductive JVal where
  | jnull : JVal
  | jbool : Bool → JVal
  | jnum : Int → JVal
  | jstr : String → JVal
  | jarr : List JVal → JVal
  | jobj : List (String × JVal) → JVal

/-- Python exceptions that the embedded code can raise, other than the
library's own `ConnectionError` and `APIError`. -/
inductive PyErr where
  | valueError : PyErr
  | keyError : String → PyErr
  | typeError : PyErr
  | jsonDecodeError : PyErr
  | parseError : PyErr
  deriving DecidableEq

/-- Python dictionary subscription `v[key]`: a `KeyError` on a missing key,
a `TypeError` when `v` is not an object. -/
def jGet (v : JVal) (key : String) : Except PyErr JVal :=
  match v with
  | .jobj fields =>
    match fields.lookup key with
    | some x => .ok x
    | none => .error (.keyError key)
  | _ => .error .typeError

/-- Python truthiness of a decoded JSON value (used by
`iso8601.parse_date(created) if created else None` in `Record.__init__`). -/
def pyTruthy : JVal → Bool
  | .jnull => false
  | .jbool b => b
  | .jnum n => if n = 0 then false else true
  | .jstr s => if s = "" then false else true
  | .jarr [] => false
  | .jarr (_ :: _) => true
  | .jobj [] => false
  | .jobj (_ :: _) => true

/-- Python iteration `for item in blob`: lists yield their elements, dicts
yield their keys, strings yield their characters as one-character strings,
and other values raise `TypeError`. -/
def pyIter : JVal → Except PyErr (List JVal)
  | .jarr xs => .ok xs
  | .jobj fs => .ok (fs.map (fun p => .jstr p.1))
  | .jstr s => .ok (s.data.map (fun c => .jstr ⟨[c]⟩))
  | _ => .error .typeError

/-- Left-to-right effectful map over `Except`, the shape of the
`for item in blob: records.append(Record.unmarshal_json(item))` loops. -/
def mapExcept {ε α β : Type} (f : α → Except ε β) : List α → Except ε (List β)
  | [] => .ok []
  | x :: xs => do
    let y ← f x
    let ys ← mapExcept f xs
    .ok (y :: ys)

/-- `model.py`, class `Record`: `tags` and `ref` are stored exactly as found
in the decoded JSON; `created` is parsed by the external ISO-8601 parser
(modelled by the parameter `pd`) when truthy, and is `None` otherwise.
`TS` is the (abstract) type of timezone-aware instants the parser returns. -/
structure Record (TS : Type) where
  tags : JVal
  ref : JVal
  created : Option TS

/-- `model.py`, `Record.unmarshal_json` followed by `Record.__init__`:
reads `json['tags']`, `json['ref']`, `json['created']` in that order, then
runs `iso8601.parse_date(created) if created else None`.  The parser models
`iso8601.parse_date` restricted to strings; a non-string truthy `created`
raises `TypeError` as the real parser would reject it. -/
def Record.unmarshal_json {TS : Type} (pd : String → Except PyErr TS) (j : JVal) :
    Except PyErr (Record TS) := do
  let tags ← jGet j "tags"
  let ref ← jGet j "ref"
  let created ← jGet j "created"
  if pyTruthy created then
    match created with
    | .jstr s => do
      let ts ← pd s
      .ok ⟨tags, ref, some ts⟩
    | _ => .error .typeError
  else
    .ok ⟨tags, ref, none⟩

/-- Modelled from the spec: the `Result` class is imported by `client.py`
from `motherlib.model` but is missing from the sources under `src/`; only its
constructor calls `Result(content=...)` / `Result(records=...)` and the test
assertions `result.records is None` / `result.content is not None` appear.
Spec §3 defines it as a value with a `content` byte-stream slot and a
`records` list slot, exactly one of which is populated; a keyword argument
left out defaults to the empty (`None`) slot. -/
structure Result (TS : Type) where
  content : Option (List Nat)
  records : Option (List (Record TS))

/-- `client.py`, `APIClient._get_latest`, decoding part (after the transport
returned a non-error response): try `response.json()`; on a JSON decode
failure return `Result(content=BytesIO(response.content))`; otherwise decode
each element of the parsed value as a `Record` and return
`Result(records=records)`. -/
def decode_latest {TS : Type} (pd : String → Except PyErr TS)
    (content : List Nat) (parsed : Option JVal) : Except PyErr (Result TS) :=
  match parsed with
  | none => .ok ⟨some content, none⟩
  | some v => do
    let items ← pyIter v
    let recs ← mapExcept (Record.unmarshal_json pd) items
    .ok ⟨none, some recs⟩

/-- An HTTP response as observed by the client: status code, optional
`Location` header, raw body bytes, and the outcome of attempting to parse
the body as JSON (`none` models a `json.decoder.JSONDecodeError`). -/
structure Response where
  status : Nat
  location : Option String
  content : List Nat
  parsed : Option JVal

/-- Outcome of one network round trip of `requests.request`:
either a `requests.exceptions.ConnectionError` or a response. -/
inductive NetOutcome where
  | connError : NetOutcome
  | resp : Response → NetOutcome

/-- The two exception classes the retry predicate in `HTTPClient.request`
tests for: `requests.exceptions.ConnectionError` and
`requests.exceptions.HTTPError` (the latter carries the response). -/
inductive ReqException where
  | connectionError : ReqException
  | httpError : Response → ReqException

/-- `client.py`, `HTTPClient.request`, inner `do_request`: perform one
network call (`net k` is the outcome of attempt number `k`), then
`response.raise_for_status()`, which raises `HTTPError` exactly for status
codes in `[400, 600)`. -/
def do_request (net : Nat → NetOutcome) (k : Nat) : Except ReqException Response :=
  match net k with
  | .connError => .error .connectionError
  | .resp r => if 400 ≤ r.status ∧ r.status < 600 then .error (.httpError r) else .ok r

/-- `client.py`, `HTTPClient.request`, the `retry_on_exception` lambda:
`isinstance(e, ConnectionError) or isinstance(e, HTTPError)`. -/
def retry_on_exception (e : ReqException) : Bool :=
  match e with
  | .connectionError => true
  | .httpError _ => true

/-- The `retrying.retry` loop with `stop_max_attempt_number = N`:
attempt `k` is retried exactly when its exception satisfies the retry
predicate and `k < N`.  Here `rem` counts the retries still allowed
(`rem = N - k` is the loop invariant), so the recursion is structural.
Returns the final outcome together with the number of attempts issued. -/
def retryLoopAux (roe : ReqException → Bool)
    (att : Nat → Except ReqException Response) :
    Nat → Nat → Except ReqException Response × Nat
  | 0, k => (att k, k)
  | rem + 1, k =>
    match att k with
    | .ok r => (.ok r, k)
    | .error e => if roe e then retryLoopAux roe att rem (k + 1) else (.error e, k)

/-- `client.py`, `HTTPClient.request`: run `do_request` under
`retrying.retry(stop_max_attempt_number=retries, retry_on_exception=...)`.
The first attempt is number 1; it is always issued, and attempt `k` is
retried while `k < retries`. -/
def HTTPClient.request (retries : Nat) (net : Nat → NetOutcome) :
    Except ReqException Response × Nat :=
  retryLoopAux retry_on_exception (do_request net) (retries - 1) 1

/-- `client.py`, class `APIError`: fields are stored exactly as read from
the decoded JSON error body. -/
structure APIError where
  err : JVal
  kind : JVal
  statuscode : JVal

/-- `client.py`, `APIError.FromHTTPResponse`: `error = response.json()`,
then `cls(err=error['err'], kind=error['kind'],
statuscode=error['statuscode'])`.  A body that is not valid JSON raises
`json.decoder.JSONDecodeError`; a missing key raises `KeyError`. -/
def APIError.FromHTTPResponse (r : Response) : Except PyErr APIError :=
  match r.parsed with
  | none => .error .jsonDecodeError
  | some v => do
    let e ← jGet v "err"
    let k ← jGet v "kind"
    let s ← jGet v "statuscode"
    .ok ⟨e, k, s⟩

/-- Failures that `APIClient.request` lets escape to its caller:
the library's own `ConnectionError` (here `connectionFailure`), an
`APIError`, or any other Python exception raised while translating. -/
inductive ClientError where
  | connectionFailure : ClientError
  | apiError : APIError → ClientError
  | pyExc : PyErr → ClientError

/-- `client.py`, `APIClient.request`: delegate to `HTTPClient.request`;
translate a terminal `requests` `ConnectionError` into the library's
`ConnectionError` and a terminal `HTTPError` into
`APIError.FromHTTPResponse(exc.response)` (whose own exceptions, e.g. a
`JSONDecodeError` on a non-JSON error body, propagate instead).
The attempt count is carried along for observation. -/
def APIClient.request (retries : Nat) (net : Nat → NetOutcome) :
    Except ClientError Response × Nat :=
  match HTTPClient.request retries net with
  | (.ok r, k) => (.ok r, k)
  | (.error .connectionError, k) => (.error .connectionFailure, k)
  | (.error (.httpError r), k) =>
    match APIError.FromHTTPResponse r with
    | .ok a => (.error (.apiError a), k)
    | .error pe => (.error (.pyExc pe), k)

/-- An HTTP request as assembled by the `APIClient` operations before it is
handed to the transport. -/
structure Request where
  method : String
  uri : String
  headers : List (String × String)
  body : Option (List Nat)
  deriving DecidableEq

/-- `'/'.join(tags)`, the tag-path encoding used by every operation. -/
def joinTags (tags : List String) : String :=
  String.intercalate "/" tags

/-- `sep = '' if len(tags) == 0 else '/'` from the superset operations. -/
def supersetSep (tags : List String) : String :=
  if tags.length = 0 then "" else "/"

/-- `client.py`, `APIClient._get_latest`: `GET /latest/{URI}` with
`Accept: application/json`. -/
def latest_req (URI : String) : Request :=
  ⟨"GET", "/latest/" ++ URI, [("Accept", "application/json")], none⟩

/-- `client.py`, `APIClient._get_history`: `GET /history/{URI}` with
`Accept: application/json`. -/
def history_req (URI : String) : Request :=
  ⟨"GET", "/history/" ++ URI, [("Accept", "application/json")], none⟩

/-- `client.py`, `APIClient._delete_history`: `DELETE /history/{URI}`. -/
def delete_hist_req (URI : String) : Request :=
  ⟨"DELETE", "/history/" ++ URI, [], none⟩

/-- `client.py`, `APIClient.put_latest`, request-assembly phase:
`if len(tags) == 0: raise ValueError`, then `PUT /latest/{'/'.join(tags)}`
with the content as body. -/
def put_latest_req (tags : List String) (content : List Nat) : Except PyErr Request :=
  if tags.length = 0 then .error .valueError
  else .ok ⟨"PUT", "/latest/" ++ joinTags tags, [], some content⟩

/-- `client.py`, `APIClient.get_latest`: no validation, exact-match URI. -/
def get_latest_req (tags : List String) : Except PyErr Request :=
  .ok (latest_req (joinTags tags))

/-- `client.py`, `APIClient.get_superset_latest`: trailing separator when
the tag list is non-empty. -/
def get_superset_latest_req (tags : List String) : Except PyErr Request :=
  .ok (latest_req (joinTags tags ++ supersetSep tags))

/-- `client.py`, `APIClient.get_history`: no validation, exact-match URI. -/
def get_history_req (tags : List String) : Except PyErr Request :=
  .ok (history_req (joinTags tags))

/-- `client.py`, `APIClient.get_superset_history`. -/
def get_superset_history_req (tags : List String) : Except PyErr Request :=
  .ok (history_req (joinTags tags ++ supersetSep tags))

/-- `client.py`, `APIClient.delete_history`: no validation. -/
def delete_history_req (tags : List String) : Except PyErr Request :=
  .ok (delete_hist_req (joinTags tags))

/-- `client.py`, `APIClient.delete_superset_history`. -/
def delete_superset_history_req (tags : List String) : Except PyErr Request :=
  .ok (delete_hist_req (joinTags tags ++ supersetSep tags))

/-- Run an operation end to end at the transport level: an assembly-phase
exception escapes before any network traffic (0 requests); otherwise the
assembled request is sent through `APIClient.request`.  `net` maps the
request and the attempt number to that attempt's outcome. -/
def issueRequest (retries : Nat) (net : Request → Nat → NetOutcome)
    (req : Except PyErr Request) : Except ClientError Response × Nat :=
  match req with
  | .error e => (.error (.pyExc e), 0)
  | .ok rq => APIClient.request retries (net rq)

/-- The character sequence of the `'/blob/'` marker used by
`APIClient.put_latest` to extract the reference from `Location`. -/
def blobMarker : List Char := "/blob/".data

/-- `length_le` for boolean list prefixes. -/
theorem isPrefixOf_length_le (l s : List Char) (h : l.isPrefixOf s = true) :
    l.length ≤ s.length := by
  induction l generalizing s with
  | nil => exact Nat.zero_le _
  | cons a l ih =>
    cases s with
    | nil => simp [List.isPrefixOf] at h
    | cons b s =>
      simp only [List.isPrefixOf, Bool.and_eq_true] at h
      simpa using ih s h.2

/-- A list is a boolean prefix of itself followed by anything. -/
theorem isPrefixOf_append_self (l t : List Char) : l.isPrefixOf (l ++ t) = true := by
  induction l with
  | nil => simp
  | cons a l ih => simp [List.isPrefixOf_cons₂, ih]

/-- Python's `location.split('/blob/')`: scan left to right; whenever the
marker matches at the current position, close the current field and skip
the marker.  Mirrors `str.split` with a non-empty separator.  The `fuel`
argument makes the recursion structural; every step strictly shrinks the
string, so any fuel exceeding the string length computes the split. -/
def splitBlobF : Nat → List Char → List (List Char)
  | 0, _ => []
  | fuel + 1, s =>
    if blobMarker.isPrefixOf s then
      [] :: splitBlobF fuel (s.drop blobMarker.length)
    else
      match s with
      | [] => [[]]
      | x :: xs =>
        match splitBlobF fuel xs with
        | [] => [[x]]
        | f :: rest => (x :: f) :: rest

/-- `location.split('/blob/')` with the fuel fixed to a sufficient value. -/
def splitBlob (s : List Char) : List (List Char) :=
  splitBlobF (s.length + 1) s

/-- The split does not depend on the fuel, as long as it is sufficient. -/
theorem splitBlobF_fuel_irrel (fuel₁ : Nat) :
    ∀ fuel₂ s, s.length < fuel₁ → s.length < fuel₂ →
      splitBlobF fuel₁ s = splitBlobF fuel₂ s := by
  induction fuel₁ with
  | zero => intro fuel₂ s h1 _; exact absurd h1 (Nat.not_lt_zero _)
  | succ fuel₁ ih =>
    intro fuel₂ s h1 h2
    cases fuel₂ with
    | zero => exact absurd h2 (Nat.not_lt_zero _)
    | succ fuel₂ =>
      show splitBlobF (fuel₁ + 1) s = splitBlobF (fuel₂ + 1) s
      cases hpre : blobMarker.isPrefixOf s with
      | true =>
        have hlen := isPrefixOf_length_le blobMarker s hpre
        have hm : 0 < blobMarker.length := by decide
        have hdrop : (s.drop blobMarker.length).length = s.length - blobMarker.length :=
          List.length_drop _ _
        simp only [splitBlobF, hpre, if_true]
        rw [ih fuel₂ (s.drop blobMarker.length) (by omega) (by omega)]
      | false =>
        cases s with
        | nil => simp [splitBlobF, hpre]
        | cons x xs =>
          have hxs : xs.length < fuel₁ := by
            simp only [List.length_cons] at h1; omega
          have hxs2 : xs.length < fuel₂ := by
            simp only [List.length_cons] at h2; omega
          simp only [splitBlobF, hpre, if_false, Bool.false_eq_true]
          rw [ih fuel₂ xs hxs hxs2]

/-- One-step unfolding of `splitBlobF` at positive fuel. -/
theorem splitBlobF_succ (fuel : Nat) (s : List Char) :
    splitBlobF (fuel + 1) s =
      if blobMarker.isPrefixOf s then
        [] :: splitBlobF fuel (s.drop blobMarker.length)
      else
        match s with
        | [] => [[]]
        | x :: xs =>
          match splitBlobF fuel xs with
          | [] => [[x]]
          | f :: rest => (x :: f) :: rest := rfl

/-- Unfolding `splitBlob` when the marker matches at the front. -/
theorem splitBlob_pos (s : List Char) (h : blobMarker.isPrefixOf s = true) :
    splitBlob s = [] :: splitBlob (s.drop blobMarker.length) := by
  have hlen := isPrefixOf_length_le blobMarker s h
  have hm : 0 < blobMarker.length := by decide
  have hdrop : (s.drop blobMarker.length).length = s.length - blobMarker.length :=
    List.length_drop _ _
  show splitBlobF (s.length + 1) s = _
  rw [splitBlobF_succ, if_pos h]
  exact congrArg _ (splitBlobF_fuel_irrel s.length ((s.drop blobMarker.length).length + 1)
    (s.drop blobMarker.length) (by omega) (by omega))

/-- Unfolding `splitBlob` on a non-empty string not starting with the
marker. -/
theorem splitBlob_neg (x : Char) (xs : List Char)
    (h : blobMarker.isPrefixOf (x :: xs) = false) :
    splitBlob (x :: xs) =
      match splitBlob xs with
      | [] => [[x]]
      | f :: rest => (x :: f) :: rest := by
  show splitBlobF (xs.length + 1 + 1) (x :: xs) = _
  rw [splitBlobF_succ, if_neg (by simp [h])]
  rfl

/-- `splitBlob` on the empty string. -/
theorem splitBlob_nil : splitBlob [] = [[]] := rfl

/-- Python's `lst[-1]` on the (always non-empty) result of `split`. -/
def lastField : List (List Char) → List Char
  | [] => []
  | [a] => a
  | _ :: b :: rest => lastField (b :: rest)

/-- `client.py`, `APIClient.put_latest`, reference extraction:
`ref = location.split('/blob/')[-1]`. -/
def put_latest_ref (location : String) : String :=
  ⟨lastField (splitBlob location.data)⟩

/-- `client.py`, `APIClient.put_latest`, response-handling phase:
`location = response.headers['Location']` (a `KeyError` when absent), then
the reference extraction. -/
def put_latest_extract (r : Response) : Except PyErr String :=
  match r.location with
  | none => .error (.keyError "Location")
  | some loc => .ok (put_latest_ref loc)

/-- The marker occurs in `s` at position `i`. -/
def occursBlobAt (s : List Char) (i : Nat) : Bool :=
  blobMarker.isPrefixOf (s.drop i)

/-- The marker occurs somewhere in `s`. -/
def containsBlob (s : List Char) : Bool :=
  blobMarker.isPrefixOf s ||
    match s with
    | [] => false
    | _ :: xs => containsBlob xs

/-- `lastField` ignores the head of a list with at least two fields. -/
theorem lastField_cons (a b : List Char) (rest : List (List Char)) :
    lastField (a :: b :: rest) = lastField (b :: rest) := rfl

/-- `split` never returns an empty field list. -/
theorem splitBlob_ne_nil (s : List Char) : splitBlob s ≠ [] := by
  cases hpre : blobMarker.isPrefixOf s with
  | true => rw [splitBlob_pos s hpre]; simp
  | false =>
    cases s with
    | nil => rw [splitBlob_nil]; simp
    | cons x xs =>
      rw [splitBlob_neg x xs hpre]
      cases splitBlob xs <;> simp

/-- Unfolding equation for `containsBlob` on a cons cell. -/
theorem containsBlob_cons (x : Char) (xs : List Char) :
    containsBlob (x :: xs) = (blobMarker.isPrefixOf (x :: xs) || containsBlob xs) := rfl

/-- An occurrence of the marker at any position witnesses `containsBlob`. -/
theorem containsBlob_of_occurs (s : List Char) (j : Nat)
    (h : blobMarker.isPrefixOf (s.drop j) = true) : containsBlob s = true := by
  induction s generalizing j with
  | nil =>
    rw [List.drop_nil] at h
    exact absurd h (by decide)
  | cons x xs ih =>
    rw [containsBlob_cons]
    cases j with
    | zero =>
      rw [List.drop_zero] at h
      simp [h]
    | succ j =>
      rw [List.drop_succ_cons] at h
      simp [ih j h]

/-- `containsBlob` yields a concrete occurrence position. -/
theorem occurs_of_containsBlob (s : List Char) (h : containsBlob s = true) :
    ∃ j, j < s.length ∧ blobMarker.isPrefixOf (s.drop j) = true := by
  induction s with
  | nil => exact absurd h (by decide)
  | cons x xs ih =>
    rw [containsBlob_cons] at h
    rcases (Bool.or_eq_true _ _).mp h with hp | hc
    · exact ⟨0, by simp, by simpa using hp⟩
    · obtain ⟨j, hj, hp⟩ := ih hc
      exact ⟨j + 1, by simp [Nat.succ_lt_succ hj], by simpa [List.drop_succ_cons] using hp⟩

/-- A string free of the marker splits into the single field it is. -/
theorem splitBlob_eq_single (r : List Char) (h : containsBlob r = false) :
    splitBlob r = [r] := by
  induction r with
  | nil => exact splitBlob_nil
  | cons x xs ih =>
    rw [containsBlob_cons, Bool.or_eq_false_iff] at h
    rw [splitBlob_neg x xs h.1, ih h.2]

/-- A string containing the marker splits into at least two fields. -/
theorem two_le_splitBlob_of_contains (s : List Char) (h : containsBlob s = true) :
    2 ≤ (splitBlob s).length := by
  induction s with
  | nil => exact absurd h (by decide)
  | cons x xs ih =>
    cases hpre : blobMarker.isPrefixOf (x :: xs) with
    | true =>
      rw [splitBlob_pos _ hpre]
      have hne := splitBlob_ne_nil (((x :: xs)).drop blobMarker.length)
      have hpos := List.length_pos.mpr hne
      simp only [List.length_cons]
      omega
    | false =>
      rw [containsBlob_cons, hpre] at h
      simp only [Bool.false_or] at h
      have h2 := ih h
      rw [splitBlob_neg x xs hpre]
      cases hsp : splitBlob xs with
      | nil => exact absurd hsp (splitBlob_ne_nil xs)
      | cons f rest =>
        rw [hsp] at h2
        simpa using h2

/-- Dropping past an appended prefix. -/
theorem drop_append_offset (l t : List Char) (n : Nat) :
    (l ++ t).drop (l.length + n) = t.drop n := by
  induction l with
  | nil => simp
  | cons a l ih =>
    simp only [List.cons_append, List.length_cons]
    rw [show l.length + 1 + n = (l.length + n) + 1 from by omega, List.drop_succ_cons]
    exact ih

/-- Key lemma for the `Location` extraction: when the `'/blob/'` marker
occurs in the string only at position `p.length` (the decomposition point),
the last field of the split is exactly the suffix after the marker. -/
theorem splitBlob_unique_marker (p r : List Char)
    (huniq : ∀ i, i < (p ++ blobMarker ++ r).length →
      occursBlobAt (p ++ blobMarker ++ r) i = true → i = p.length) :
    lastField (splitBlob (p ++ blobMarker ++ r)) = r := by
  induction p with
  | nil =>
    simp only [List.nil_append, List.length_nil] at huniq ⊢
    have hc : containsBlob r = false := by
      cases hc : containsBlob r with
      | false => rfl
      | true =>
        obtain ⟨j, hj, hp⟩ := occurs_of_containsBlob r hc
        have hocc : occursBlobAt (blobMarker ++ r) (blobMarker.length + j) = true := by
          show blobMarker.isPrefixOf ((blobMarker ++ r).drop (blobMarker.length + j)) = true
          rw [drop_append_offset]
          exact hp
        have hlt : blobMarker.length + j < (blobMarker ++ r).length := by
          simp only [List.length_append]
          omega
        have h0 := huniq (blobMarker.length + j) hlt hocc
        have hm : 0 < blobMarker.length := by decide
        omega
    rw [splitBlob_pos (blobMarker ++ r) (isPrefixOf_append_self _ _),
      List.drop_left, splitBlob_eq_single r hc]
    rfl
  | cons c p' ih =>
    have hs : (c :: p') ++ blobMarker ++ r = c :: (p' ++ blobMarker ++ r) := by
      simp
    rw [hs] at huniq ⊢
    have hlen : (c :: (p' ++ blobMarker ++ r)).length = (p' ++ blobMarker ++ r).length + 1 :=
      List.length_cons _ _
    have hpre : blobMarker.isPrefixOf (c :: (p' ++ blobMarker ++ r)) = false := by
      cases hb : blobMarker.isPrefixOf (c :: (p' ++ blobMarker ++ r)) with
      | false => rfl
      | true =>
        have h0 := huniq 0 (by omega) (by simpa [occursBlobAt] using hb)
        simp at h0
    have hcont : containsBlob (p' ++ blobMarker ++ r) = true := by
      apply containsBlob_of_occurs _ p'.length
      rw [List.append_assoc, List.drop_left]
      exact isPrefixOf_append_self _ _
    have ih' := ih (by
      intro i hi hocc
      have hocc' : occursBlobAt (c :: (p' ++ blobMarker ++ r)) (i + 1) = true := by
        simpa [occursBlobAt, List.drop_succ_cons] using hocc
      have := huniq (i + 1) (by omega) hocc'
      simp only [List.length_cons] at this
      omega)
    rw [splitBlob_neg c _ hpre]
    have h2 := two_le_splitBlob_of_contains _ hcont
    cases hsp : splitBlob (p' ++ blobMarker ++ r) with
    | nil => exact absurd hsp (splitBlob_ne_nil _)
    | cons f rest =>
      rw [hsp] at h2 ih'
      cases rest with
      | nil => simp at h2
      | cons r0 rest' =>
        show lastField ((c :: f) :: r0 :: rest') = r
        rw [lastField_cons]
        rw [lastField_cons] at ih'
        exact ih'

/-- The source's retry predicate accepts every exception it can see
(both `ConnectionError` and `HTTPError` are listed). -/
theorem retry_on_exception_true (e : ReqException) : retry_on_exception e = true := by
  cases e <;> rfl

/-- Except-monad bind on a success. -/
theorem except_bind_ok {ε α β : Type} (a : α) (f : α → Except ε β) :
    (Except.ok a : Except ε α) >>= f = f a := rfl

/-- Except-monad bind on a failure. -/
theorem except_bind_error {ε α β : Type} (e : ε) (f : α → Except ε β) :
    (Except.error e : Except ε α) >>= f = .error e := rfl

/-- The retry loop always returns the outcome of some attempt `m` between
the first attempt and the attempt budget, together with that `m`. -/
theorem retryLoopAux_eq_att (roe : ReqException → Bool)
    (att : Nat → Except ReqException Response) :
    ∀ rem k, ∃ m, retryLoopAux roe att rem k = (att m, m) ∧ k ≤ m ∧ m ≤ k + rem := by
  intro rem
  induction rem with
  | zero => intro k; exact ⟨k, rfl, Nat.le_refl k, by omega⟩
  | succ rem ih =>
    intro k
    cases hk : att k with
    | ok r =>
      refine ⟨k, ?_, Nat.le_refl k, by omega⟩
      simp only [retryLoopAux, hk]
    | error e =>
      cases hro : roe e with
      | true =>
        obtain ⟨m, hm, hkm, hmk⟩ := ih (k + 1)
        refine ⟨m, ?_, by omega, by omega⟩
        simp only [retryLoopAux, hk, hro, if_true]
        exact hm
      | false =>
        refine ⟨k, ?_, Nat.le_refl k, by omega⟩
        simp only [retryLoopAux, hk, hro, if_false, Bool.false_eq_true]

/-- When every attempt fails, the loop spends its whole budget and ends
with the outcome of the last attempt. -/
theorem retryLoopAux_all_fail (att : Nat → Except ReqException Response)
    (hfail : ∀ n, ∃ e, att n = .error e) :
    ∀ rem k, retryLoopAux retry_on_exception att rem k = (att (k + rem), k + rem) := by
  intro rem
  induction rem with
  | zero => intro k; rfl
  | succ rem ih =>
    intro k
    obtain ⟨e, he⟩ := hfail k
    simp only [retryLoopAux, he, retry_on_exception_true, if_true]
    rw [ih (k + 1), show k + 1 + rem = k + (rem + 1) from by omega]

/-- Outcomes of a single attempt of `do_request`, by case on the network. -/
theorem do_request_cases (net : Nat → NetOutcome) (k : Nat) :
    (net k = .connError ∧ do_request net k = .error .connectionError)
  ∨ (∃ r, net k = .resp r ∧ 400 ≤ r.status ∧ r.status < 600 ∧
      do_request net k = .error (.httpError r))
  ∨ (∃ r, net k = .resp r ∧ ¬(400 ≤ r.status ∧ r.status < 600) ∧
      do_request net k = .ok r) := by
  cases hk : net k with
  | connError => exact Or.inl ⟨rfl, by simp [do_request, hk]⟩
  | resp r =>
    by_cases hs : 400 ≤ r.status ∧ r.status < 600
    · exact Or.inr (Or.inl ⟨r, rfl, hs.1, hs.2, by simp [do_request, hk, hs]⟩)
    · exact Or.inr (Or.inr ⟨r, rfl, hs, by simp [do_request, hk, hs]⟩)

/-- A successful `mapExcept` run preserves the list length. -/
theorem mapExcept_length {ε α β : Type} (f : α → Except ε β) :
    ∀ (l : List α) (ys : List β), mapExcept f l = .ok ys → ys.length = l.length := by
  intro l
  induction l with
  | nil =>
    intro ys h
    simp only [mapExcept] at h
    cases h
    rfl
  | cons x xs ih =>
    intro ys h
    simp only [mapExcept] at h
    cases hfx : f x with
    | error e => rw [hfx, except_bind_error] at h; cases h
    | ok y =>
      rw [hfx, except_bind_ok] at h
      cases hm : mapExcept f xs with
      | error e => rw [hm, except_bind_error] at h; cases h
      | ok ys' =>
        rw [hm, except_bind_ok] at h
        cases h
        simp [ih ys' hm]

/-- A successful `mapExcept` run maps each element to the result in the
same position: the output order is the input order. -/
theorem mapExcept_get {ε α β : Type} (f : α → Except ε β) :
    ∀ (l : List α) (ys : List β), mapExcept f l = .ok ys →
      ∀ i (hi : i < l.length) (hy : i < ys.length),
        f (l.get ⟨i, hi⟩) = .ok (ys.get ⟨i, hy⟩) := by
  intro l
  induction l with
  | nil => intro ys h i hi hy; exact absurd hi (by simp)
  | cons x xs ih =>
    intro ys h i hi hy
    simp only [mapExcept] at h
    cases hfx : f x with
    | error e => rw [hfx, except_bind_error] at h; cases h
    | ok y =>
      rw [hfx, except_bind_ok] at h
      cases hm : mapExcept f xs with
      | error e => rw [hm, except_bind_error] at h; cases h
      | ok ys' =>
        rw [hm, except_bind_ok] at h
        cases h
        cases i with
        | zero => exact hfx
        | succ i =>
          exact ih ys' hm i (by simpa using hi) (by simpa using hy)

/-- A 401 Unauthorized response with an empty body. -/
def resp401 : Response := ⟨401, none, [], none⟩

/-- A network that answers 401 on every attempt. -/
def net401 : Nat → NetOutcome := fun _ => .resp resp401

/-- A 500 response with an empty body. -/
def resp500 : Response := ⟨500, none, [], none⟩

/-- A network that answers 500 on every attempt. -/
def net500 : Nat → NetOutcome := fun _ => .resp resp500

/-- Claim C4: for every retry budget N ≥ 1, a request that fails with a
retryable failure (transport failure, or status failure other than 401) on
every attempt is attempted exactly N times, and the final failure
propagated to the caller is the very exception of the last attempt — in
particular of the same kind. -/
theorem request_retries_exhaust_budget (N : Nat) (net : Nat → NetOutcome)
    (hN : 1 ≤ N)
    (hfail : ∀ n, net n = .connError ∨
      ∃ r, net n = .resp r ∧ 400 ≤ r.status ∧ r.status < 600 ∧ r.status ≠ 401) :
    ∃ e, do_request net N = .error e ∧ HTTPClient.request N net = (.error e, N) := by
  have hfail' : ∀ n, ∃ e, do_request net n = .error e := by
    intro n
    rcases hfail n with h | ⟨r, hr, h4, h6, _⟩
    · exact ⟨.connectionError, by simp [do_request, h]⟩
    · exact ⟨.httpError r, by simp [do_request, hr, h4, h6]⟩
  obtain ⟨e, he⟩ := hfail' N
  refine ⟨e, he, ?_⟩
  show retryLoopAux retry_on_exception (do_request net) (N - 1) 1 = _
  rw [retryLoopAux_all_fail (do_request net) hfail' (N - 1) 1,
    show 1 + (N - 1) = N from by omega, he]

/-- Witness for C4 at N = 2 against a network that always answers 500. -/
theorem request_retries_exhaust_budget_witness :
    (1 : Nat) ≤ 2 ∧ ∃ e, do_request net500 2 = .error e ∧
      HTTPClient.request 2 net500 = (.error e, 2) :=
  ⟨by decide, request_retries_exhaust_budget 2 net500 (by decide)
    (fun _ => Or.inr ⟨resp500, rfl, by decide, by decide, by decide⟩)⟩

/-- Counterexample for claim C2: the claim says a first-attempt 401 is
propagated immediately with exactly one request issued; against a network
that always answers 401 and a budget of 2, the client issues 2 requests
(the retry predicate retries `HTTPError` regardless of its status code). -/
theorem unauthorized_retry_cx :
    HTTPClient.request 2 net401 = (.error (.httpError resp401), 2) ∧ (2 : Nat) ≠ 1 :=
  ⟨rfl, by decide⟩

/-- Claim C2 (amended): a 401 status failure is retried like any other
status failure: with budget N ≥ 1 and every attempt answering 401, N
requests are issued and the final failure is the 401 `HTTPError`. -/
theorem unauthorized_retried_like_any_failure (N : Nat) (net : Nat → NetOutcome)
    (hN : 1 ≤ N) (h401 : ∀ n, ∃ r, net n = .resp r ∧ r.status = 401) :
    ∃ r, net N = .resp r ∧ r.status = 401 ∧
      HTTPClient.request N net = (.error (.httpError r), N) := by
  have hfail' : ∀ n, ∃ e, do_request net n = .error e := by
    intro n
    obtain ⟨r, hr, hs⟩ := h401 n
    exact ⟨.httpError r, by simp [do_request, hr, hs]⟩
  obtain ⟨r, hr, hs⟩ := h401 N
  refine ⟨r, hr, hs, ?_⟩
  show retryLoopAux retry_on_exception (do_request net) (N - 1) 1 = _
  rw [retryLoopAux_all_fail (do_request net) hfail' (N - 1) 1,
    show 1 + (N - 1) = N from by omega]
  simp [do_request, hr, hs]

/-- Witness for the amended C2 at N = 2. -/
theorem unauthorized_retried_witness :
    ∃ r, net401 2 = .resp r ∧ r.status = 401 ∧
      HTTPClient.request 2 net401 = (.error (.httpError r), 2) :=
  unauthorized_retried_like_any_failure 2 net401 (by decide) (fun _ => ⟨resp401, rfl, rfl⟩)

/-- A plain 200 response with a two-byte non-JSON body. -/
def respOK : Response := ⟨200, none, [104, 105], none⟩

/-- A request-indexed network that answers 200 on every attempt. -/
def netOK : Request → Nat → NetOutcome := fun _ _ => .resp respOK

/-- Counterexample for claim C3: the claim says every exact-match operation
rejects an empty tag set with `InvalidArgument` before any network request;
but `get_latest`, `get_history` and `delete_history` perform no validation:
`get_latest([])` assembles the request `GET /latest/` and issues one network
request (not zero), and the other two likewise assemble their requests. -/
theorem empty_tags_not_rejected_cx :
    get_latest_req [] = .ok (latest_req "")
  ∧ (issueRequest 3 netOK (get_latest_req [])).2 = 1
  ∧ (1 : Nat) ≠ 0
  ∧ get_history_req [] = .ok (history_req "")
  ∧ delete_history_req [] = .ok (delete_hist_req "") :=
  ⟨rfl, rfl, by decide, rfl, rfl⟩

/-- Claim C3 (amended): only `put_latest` validates the tag set: with an
empty tag set it raises `ValueError` before any network request (zero
requests observed), while `get_latest`, `get_history` and `delete_history`
accept the empty tag set and assemble requests for `/latest/` resp.
`/history/`. -/
theorem only_put_latest_validates_empty_tags (N : Nat)
    (net : Request → Nat → NetOutcome) (content : List Nat) :
    put_latest_req [] content = .error .valueError
  ∧ issueRequest N net (put_latest_req [] content) = (.error (.pyExc .valueError), 0)
  ∧ get_latest_req [] = .ok (latest_req "")
  ∧ (latest_req "").uri = "/latest/"
  ∧ get_history_req [] = .ok (history_req "")
  ∧ (history_req "").uri = "/history/"
  ∧ delete_history_req [] = .ok (delete_hist_req "")
  ∧ (delete_hist_req "").uri = "/history/" :=
  ⟨rfl, rfl, rfl, by decide, rfl, by decide, rfl, by decide⟩

/-- Claim C5 (code-bug evidence): the URI path segment is `'/'.join(tags)`
with no canonical reordering, so two presentations of the same logical tag
set produce different path segments: `["a", "b"]` and `["b", "a"]` are
permutations of each other, yet they encode to `"a/b"` and `"b/a"` and
`get_latest` assembles different URIs from them. -/
theorem joinTags_not_order_invariant :
    List.Perm ["a", "b"] ["b", "a"]
  ∧ joinTags ["a", "b"] = "a/b"
  ∧ joinTags ["b", "a"] = "b/a"
  ∧ joinTags ["a", "b"] ≠ joinTags ["b", "a"]
  ∧ get_latest_req ["a", "b"] = .ok (latest_req "a/b")
  ∧ get_latest_req ["b", "a"] = .ok (latest_req "b/a")
  ∧ (latest_req "a/b").uri ≠ (latest_req "b/a").uri :=
  ⟨List.Perm.swap "b" "a" [], by decide, by decide, by decide, rfl, rfl, by decide⟩

/-- Claim C9: for the superset operations an empty tag set is valid (no
exception is raised at assembly time) and encodes to the empty path
segment, giving `GET /latest/`, `GET /history/` and `DELETE /history/`;
a non-empty tag set encodes to the joined tags followed by a trailing
slash. -/
theorem superset_ops_empty_and_trailing (tags : List String) :
    get_superset_latest_req [] = .ok (latest_req "")
  ∧ (latest_req "").uri = "/latest/"
  ∧ get_superset_history_req [] = .ok (history_req "")
  ∧ (history_req "").uri = "/history/"
  ∧ delete_superset_history_req [] = .ok (delete_hist_req "")
  ∧ (delete_hist_req "").uri = "/history/"
  ∧ (tags ≠ [] →
      get_superset_latest_req tags = .ok (latest_req (joinTags tags ++ "/"))
    ∧ get_superset_history_req tags = .ok (history_req (joinTags tags ++ "/"))
    ∧ delete_superset_history_req tags = .ok (delete_hist_req (joinTags tags ++ "/"))) := by
  refine ⟨rfl, by decide, rfl, by decide, rfl, by decide, ?_⟩
  intro htags
  have hlen : ¬ tags.length = 0 := fun h => htags (List.length_eq_zero.mp h)
  refine ⟨?_, ?_, ?_⟩ <;>
    simp [get_superset_latest_req, get_superset_history_req,
      delete_superset_history_req, supersetSep, hlen]

/-- Witness for C9 at the concrete tag list `["a", "b"]`. -/
theorem superset_ops_witness :
    (["a", "b"] : List String) ≠ []
  ∧ get_superset_history_req ["a", "b"] = .ok (history_req (joinTags ["a", "b"] ++ "/"))
  ∧ (history_req (joinTags ["a", "b"] ++ "/")).uri = "/history/a/b/" :=
  ⟨by decide,
    ((superset_ops_empty_and_trailing ["a", "b"]).2.2.2.2.2.2 (by decide)).2.1,
    by decide⟩

/-- Claim C10: with the empty tag list, each exact-match read/delete
operation assembles exactly the same request (same method, same URI, same
headers) as its superset counterpart, and hence behaves identically against
any network whatsoever. -/
theorem exact_equals_superset_on_empty :
    get_latest_req [] = get_superset_latest_req []
  ∧ get_history_req [] = get_superset_history_req []
  ∧ delete_history_req [] = delete_superset_history_req []
  ∧ ∀ (N : Nat) (net : Request → Nat → NetOutcome),
      issueRequest N net (get_latest_req []) = issueRequest N net (get_superset_latest_req [])
    ∧ issueRequest N net (get_history_req []) = issueRequest N net (get_superset_history_req [])
    ∧ issueRequest N net (delete_history_req []) =
        issueRequest N net (delete_superset_history_req []) :=
  ⟨rfl, rfl, rfl, fun _ _ => ⟨rfl, rfl, rfl⟩⟩

/-- Claim C1: decoding a latest-lookup response body.  A body that failed
JSON parsing yields a `Result` holding exactly the raw bytes; a body parsed
as a JSON list whose elements all decode as records yields a `Result`
holding exactly those records, as many as there are elements and in the
order received; and every `Result` this decoder can produce populates
exactly one of the two slots. -/
theorem get_latest_result_shape (TS : Type) (pd : String → Except PyErr TS)
    (content : List Nat) (parsed : Option JVal) :
    (parsed = none → decode_latest pd content parsed = .ok ⟨some content, none⟩)
  ∧ (∀ items recs, parsed = some (.jarr items) →
      mapExcept (Record.unmarshal_json pd) items = .ok recs →
      decode_latest pd content parsed = .ok ⟨none, some recs⟩
      ∧ recs.length = items.length
      ∧ ∀ i (hi : i < items.length) (hr : i < recs.length),
          Record.unmarshal_json pd (items.get ⟨i, hi⟩) = .ok (recs.get ⟨i, hr⟩))
  ∧ (∀ res, decode_latest pd content parsed = .ok res →
      (res.content.isSome = true ∧ res.records = none)
    ∨ (res.content = none ∧ res.records.isSome = true)) := by
  refine ⟨?_, ?_, ?_⟩
  · intro h
    subst h
    rfl
  · intro items recs hp hm
    subst hp
    refine ⟨?_, mapExcept_length _ items recs hm, mapExcept_get _ items recs hm⟩
    show decode_latest pd content (some (.jarr items)) = _
    simp only [decode_latest]
    rw [show pyIter (.jarr items) = .ok items from rfl, except_bind_ok, hm, except_bind_ok]
  · intro res h
    cases hp : parsed with
    | none =>
      rw [hp] at h
      injection h with h2
      subst h2
      exact Or.inl ⟨rfl, rfl⟩
    | some v =>
      rw [hp] at h
      simp only [decode_latest] at h
      cases hi : pyIter v with
      | error e => rw [hi, except_bind_error] at h; cases h
      | ok items =>
        rw [hi, except_bind_ok] at h
        cases hm : mapExcept (Record.unmarshal_json pd) items with
        | error e => rw [hm, except_bind_error] at h; cases h
        | ok recs =>
          rw [hm, except_bind_ok] at h
          injection h with h2
          subst h2
          exact Or.inr ⟨rfl, rfl⟩

/-- An identity stand-in for the external timestamp parser: accepts every
string. -/
def pdId : String → Except PyErr String := fun s => .ok s

/-- A timestamp parser that rejects every string. -/
def pdFail : String → Except PyErr String := fun _ => .error .parseError

/-- A decoded JSON record object, as in the repository's tests. -/
def recJson1 : JVal :=
  .jobj [("tags", .jarr [.jstr "log", .jstr "mothership"]), ("ref", .jstr "e3b0"),
    ("created", .jstr "2020-10-29T00:38:50+00:00")]

/-- A second decoded JSON record object. -/
def recJson2 : JVal :=
  .jobj [("tags", .jarr [.jstr "development", .jstr "log"]), ("ref", .jstr "f112"),
    ("created", .jstr "2020-10-29T00:38:23+00:00")]

/-- The record `recJson1` decodes to under the identity parser. -/
def rec1 : Record String :=
  ⟨.jarr [.jstr "log", .jstr "mothership"], .jstr "e3b0",
    some "2020-10-29T00:38:50+00:00"⟩

/-- The record `recJson2` decodes to under the identity parser. -/
def rec2 : Record String :=
  ⟨.jarr [.jstr "development", .jstr "log"], .jstr "f112",
    some "2020-10-29T00:38:23+00:00"⟩

/-- Witness for C1: a two-element JSON list yields two records in order and
no content; a non-JSON body yields the raw bytes and no records. -/
theorem get_latest_result_shape_witness :
    decode_latest pdId [104, 105] (some (.jarr [recJson1, recJson2])) =
      .ok ⟨none, some [rec1, rec2]⟩
  ∧ ([rec1, rec2] : List (Record String)).length = ([recJson1, recJson2] : List JVal).length
  ∧ decode_latest pdId [104, 105] none = .ok ⟨some [104, 105], none⟩ := by
  have h2 := (get_latest_result_shape String pdId [104, 105]
    (some (.jarr [recJson1, recJson2]))).2.1 [recJson1, recJson2] [rec1, rec2] rfl rfl
  have h1 := (get_latest_result_shape String pdId [104, 105] none).1 rfl
  exact ⟨h2.1, h2.2.1, h1⟩

/-- A JSON record object whose tag list contains a duplicate. -/
def jdup : JVal :=
  .jobj [("tags", .jarr [.jstr "a", .jstr "a"]), ("ref", .jstr "r"), ("created", .jnull)]

/-- Counterexample for claim C7: the claim says decoded tags are coerced to
a set with duplicates collapsed; the code stores the decoded `tags` value
verbatim, so a duplicated input tag list survives decoding with its
duplicate (the stored list is not duplicate-free). -/
theorem unmarshal_tags_not_dedup_cx :
    Record.unmarshal_json pdId jdup = .ok ⟨.jarr [.jstr "a", .jstr "a"], .jstr "r", none⟩
  ∧ ¬ List.Nodup [JVal.jstr "a", JVal.jstr "a"] := by
  refine ⟨rfl, ?_⟩
  intro h
  exact (List.nodup_cons.mp h).1 (List.mem_singleton.mpr rfl)

/-- Claim C7 (amended): record decoding stores the input `tags` and `ref`
values unchanged (duplicates and order preserved, no set coercion); a null
(or otherwise falsy) timestamp yields no instant; a non-empty timestamp
string is handed to the ISO-8601 parser, whose success populates `created`
and whose failure makes the whole decode fail with that error. -/
theorem unmarshal_json_fields (TS : Type) (pd : String → Except PyErr TS)
    (j t rf : JVal) (ht : jGet j "tags" = .ok t) (hr : jGet j "ref" = .ok rf) :
    (jGet j "created" = .ok .jnull → Record.unmarshal_json pd j = .ok ⟨t, rf, none⟩)
  ∧ (∀ s ts, jGet j "created" = .ok (.jstr s) → s ≠ "" → pd s = .ok ts →
      Record.unmarshal_json pd j = .ok ⟨t, rf, some ts⟩)
  ∧ (∀ s e, jGet j "created" = .ok (.jstr s) → s ≠ "" → pd s = .error e →
      Record.unmarshal_json pd j = .error e) := by
  refine ⟨?_, ?_, ?_⟩
  · intro hc
    simp only [Record.unmarshal_json, ht, hr, hc, except_bind_ok]
    rfl
  · intro s ts hc hs hp
    simp only [Record.unmarshal_json, ht, hr, hc, except_bind_ok]
    have htr : pyTruthy (.jstr s) = true := by simp [pyTruthy, hs]
    rw [htr, if_pos rfl]
    show (pd s >>= fun ts => Except.ok (⟨t, rf, some ts⟩ : Record TS)) = _
    rw [hp, except_bind_ok]
  · intro s e hc hs hp
    simp only [Record.unmarshal_json, ht, hr, hc, except_bind_ok]
    have htr : pyTruthy (.jstr s) = true := by simp [pyTruthy, hs]
    rw [htr, if_pos rfl]
    show (pd s >>= fun ts => Except.ok (⟨t, rf, some ts⟩ : Record TS)) = _
    rw [hp, except_bind_error]

/-- A well-formed JSON record object, as in the repository's model test. -/
def jgood : JVal :=
  .jobj [("tags", .jarr [.jstr "foo"]), ("ref", .jstr "bar"),
    ("created", .jstr "2007-01-25T12:00:00Z")]

/-- Witness for the amended C7: passthrough of tags and ref with a parsed
timestamp, propagation of a parser failure, and the null-timestamp case. -/
theorem unmarshal_json_fields_witness :
    Record.unmarshal_json pdId jgood =
      .ok ⟨.jarr [.jstr "foo"], .jstr "bar", some "2007-01-25T12:00:00Z"⟩
  ∧ Record.unmarshal_json pdFail jgood = .error .parseError
  ∧ Record.unmarshal_json pdId jdup = .ok ⟨.jarr [.jstr "a", .jstr "a"], .jstr "r", none⟩ :=
  ⟨(unmarshal_json_fields String pdId jgood (.jarr [.jstr "foo"]) (.jstr "bar") rfl rfl).2.1
      "2007-01-25T12:00:00Z" "2007-01-25T12:00:00Z" rfl (by decide) rfl,
   (unmarshal_json_fields String pdFail jgood (.jarr [.jstr "foo"]) (.jstr "bar") rfl rfl).2.2
      "2007-01-25T12:00:00Z" .parseError rfl (by decide) rfl,
   (unmarshal_json_fields String pdId jdup (.jarr [.jstr "a", .jstr "a"]) (.jstr "r") rfl rfl).1 rfl⟩

/-- An error body carrying all four documented fields, with distinct
`message` and `err` values. -/
def errBodyMsg : JVal :=
  .jobj [("kind", .jstr "k"), ("message", .jstr "m"), ("statuscode", .jnum 400),
    ("err", .jstr "e")]

/-- A 400 response carrying `errBodyMsg`. -/
def respMsg : Response := ⟨400, none, [], some errBodyMsg⟩

/-- Counterexample for claim C8: the claim says the raised `APIError`
carries the body's `statuscode`, `kind` and `message` fields; the code
reads `error['err']`, not `error['message']`: on a body whose `message` is
`"m"` and whose `err` is `"e"`, the decoded error's text field is `"e"`. -/
theorem apiError_carries_err_not_message_cx :
    APIError.FromHTTPResponse respMsg = .ok ⟨.jstr "e", .jstr "k", .jnum 400⟩
  ∧ jGet errBodyMsg "message" = .ok (.jstr "m")
  ∧ (JVal.jstr "e") ≠ .jstr "m" := by
  refine ⟨rfl, rfl, ?_⟩
  intro h
  injection h with h2
  exact absurd h2 (by decide)

/-- Claim C8 (amended): a terminal status failure whose JSON error body
decodes (it carries `err`, `kind` and `statuscode`) surfaces as that
`APIError`; a terminal transport failure surfaces as the library's
`ConnectionError`; and, provided every reachable error body decodes, no
outcome other than a success (with a non-error status) or one of those two
failure kinds is possible. -/
theorem request_failure_kinds (N : Nat) (net : Nat → NetOutcome)
    (hwf : ∀ n r, net n = .resp r → 400 ≤ r.status → r.status < 600 →
      ∃ a, APIError.FromHTTPResponse r = .ok a) :
    (∀ r k a, HTTPClient.request N net = (.error (.httpError r), k) →
      APIError.FromHTTPResponse r = .ok a →
      APIClient.request N net = (.error (.apiError a), k))
  ∧ (∀ k, HTTPClient.request N net = (.error .connectionError, k) →
      APIClient.request N net = (.error .connectionFailure, k))
  ∧ (∀ e, (APIClient.request N net).1 = .error e →
      e = .connectionFailure ∨ ∃ a, e = .apiError a)
  ∧ (∀ r, (APIClient.request N net).1 = .ok r → r.status < 400 ∨ 600 ≤ r.status) := by
  obtain ⟨m, hm, _hm1, _hm2⟩ :=
    retryLoopAux_eq_att retry_on_exception (do_request net) (N - 1) 1
  have hH : HTTPClient.request N net = (do_request net m, m) := hm
  refine ⟨?_, ?_, ?_, ?_⟩
  · intro r k a hh hfa
    simp only [APIClient.request, hh, hfa]
  · intro k hh
    simp only [APIClient.request, hh]
  · intro e he
    rcases do_request_cases net m with ⟨hn, hd⟩ | ⟨r, hn, h4, h6, hd⟩ | ⟨r, hn, hs, hd⟩
    · rw [hd] at hH
      rw [show APIClient.request N net = (.error .connectionFailure, m) from by
        simp only [APIClient.request, hH]] at he
      refine Or.inl ?_
      injection he with h2
      exact h2.symm
    · obtain ⟨a, ha⟩ := hwf m r hn h4 h6
      rw [hd] at hH
      rw [show APIClient.request N net = (.error (.apiError a), m) from by
        simp only [APIClient.request, hH, ha]] at he
      refine Or.inr ⟨a, ?_⟩
      injection he with h2
      exact h2.symm
    · rw [hd] at hH
      rw [show APIClient.request N net = (.ok r, m) from by
        simp only [APIClient.request, hH]] at he
      exact Except.noConfusion he
  · intro r hr
    rcases do_request_cases net m with ⟨hn, hd⟩ | ⟨r', hn, h4, h6, hd⟩ | ⟨r', hn, hs, hd⟩
    · rw [hd] at hH
      rw [show APIClient.request N net = (.error .connectionFailure, m) from by
        simp only [APIClient.request, hH]] at hr
      exact Except.noConfusion hr
    · obtain ⟨a, ha⟩ := hwf m r' hn h4 h6
      rw [hd] at hH
      rw [show APIClient.request N net = (.error (.apiError a), m) from by
        simp only [APIClient.request, hH, ha]] at hr
      exact Except.noConfusion hr
    · rw [hd] at hH
      rw [show APIClient.request N net = (.ok r', m) from by
        simp only [APIClient.request, hH]] at hr
      have hrr : r' = r := by injection hr
      subst hrr
      omega

/-- A decodable error body: `err`, `kind` and `statuscode` all present. -/
def errBody : JVal :=
  .jobj [("err", .jstr "boom"), ("kind", .jstr "internal"), ("statuscode", .jnum 500)]

/-- A 500 response carrying `errBody`. -/
def respErr : Response := ⟨500, none, [], some errBody⟩

/-- A network that answers 500 with `errBody` on every attempt. -/
def netErr : Nat → NetOutcome := fun _ => .resp respErr

/-- A network whose every attempt raises a connection error. -/
def netConn : Nat → NetOutcome := fun _ => .connError

/-- Witness for the amended C8: a terminal 500 with a decodable body yields
exactly its `APIError`; a terminal connection error yields the library's
`ConnectionError`. -/
theorem request_failure_kinds_witness :
    APIClient.request 1 netErr =
      (.error (.apiError ⟨.jstr "boom", .jstr "internal", .jnum 500⟩), 1)
  ∧ APIClient.request 1 netConn = (.error .connectionFailure, 1) := by
  have hwfE : ∀ n r, netErr n = .resp r → 400 ≤ r.status → r.status < 600 →
      ∃ a, APIError.FromHTTPResponse r = .ok a := by
    intro n r h _ _
    injection h with h2
    subst h2
    exact ⟨⟨.jstr "boom", .jstr "internal", .jnum 500⟩, rfl⟩
  have hwfC : ∀ n r, netConn n = .resp r → 400 ≤ r.status → r.status < 600 →
      ∃ a, APIError.FromHTTPResponse r = .ok a := by
    intro n r h
    exact absurd h (by intro hc; exact NetOutcome.noConfusion hc)
  exact ⟨(request_failure_kinds 1 netErr hwfE).1 respErr 1
      ⟨.jstr "boom", .jstr "internal", .jnum 500⟩ rfl rfl,
    (request_failure_kinds 1 netConn hwfC).2.1 1 rfl⟩

/-- A 204 response whose `Location` contains two (overlapping) occurrences
of the `'/blob/'` marker. -/
def respOverlap : Response := ⟨204, some "x/blob/blob/r", [], none⟩

/-- Counterexample for claim C6: on the Location `"x/blob/blob/r"` the
marker's last occurrence starts at index 6 (`"x/blob"` before it, `"r"`
after it, and `"r"` is marker-free), so the substring after the last
`'/blob/'` marker is `"r"`; but `split('/blob/')[-1]` scans left to right
without overlap and returns `"blob/r"`. -/
theorem put_latest_ref_overlap_cx :
    ("x/blob/blob/r").data = ("x/blob").data ++ blobMarker ++ ("r").data
  ∧ containsBlob ("r").data = false
  ∧ occursBlobAt ("x/blob/blob/r").data 6 = true
  ∧ ("x/blob").data.length = 6
  ∧ put_latest_extract respOverlap = .ok "blob/r"
  ∧ ("blob/r" : String) ≠ "r" :=
  ⟨by decide, by decide, by decide, by decide, rfl, by decide⟩

/-- Claim C6 (amended): when the `Location` value contains exactly one
occurrence of the `'/blob/'` marker — it decomposes as
`p ++ '/blob/' ++ r` and the marker occurs at no position other than
`p.length` — the returned reference is exactly the substring `r` after that
marker.  (With several non-overlapping occurrences the scan also ends after
the last one; the counterexample shows overlapping occurrences break the
general "after the last marker" reading.) -/
theorem put_latest_ref_unique_marker (resp : Response) (loc : String) (p r : List Char)
    (hloc : resp.location = some loc)
    (hdecomp : loc.data = p ++ blobMarker ++ r)
    (huniq : ∀ i, i < loc.data.length → occursBlobAt loc.data i = true → i = p.length) :
    put_latest_extract resp = .ok ⟨r⟩ := by
  simp only [put_latest_extract, hloc]
  have href : put_latest_ref loc = ⟨r⟩ := by
    show (⟨lastField (splitBlob loc.data)⟩ : String) = ⟨r⟩
    rw [hdecomp] at huniq ⊢
    exact congrArg _ (splitBlob_unique_marker p r huniq)
  rw [href]

/-- A 204 response with the typical `.../blob/{ref}` Location shape. -/
def respLoc : Response := ⟨204, some "http://h/blob/abc123", [], none⟩

/-- Witness for the amended C6: `Location: http://h/blob/abc123` yields the
reference `"abc123"`. -/
theorem put_latest_ref_unique_marker_witness :
    put_latest_extract respLoc = .ok "abc123" :=
  put_latest_ref_unique_marker respLoc "http://h/blob/abc123"
    ("http://h").data ("abc123").data rfl (by decide) (by decide)
